import Mathlib

set_option maxHeartbeats 1000000

/-!
Verification development for the sandboxed MCP filesystem server
(`demos/mcp/mcp_filesystem_server.py`).

The server is embedded shallowly: POSIX paths are lists of components,
the filesystem is a finite association of absolute paths to nodes, and
each Python handler becomes a pure Lean function with the same branch
structure.  Python string primitives (`os.path.isabs`, `str.startswith`,
`str.rstrip`, path splitting) are modelled by structural recursion over
the character list so that every definition evaluates inside the kernel.
-/

/-- An absolute POSIX path, as the list of its components from the root. -/
abbrev Comps := List String

/-- Model of `os.path.isabs` on POSIX: the string begins with a slash. -/
def isabs (p : String) : Bool :=
  match p.data with
  | '/' :: _ => true
  | _ => false

/-- Helper for `splitPath`: walk the characters, cutting at slashes and
dropping empty components (`cur` holds the current component reversed). -/
def splitPathAux : List Char → List Char → List String
  | [], cur => if cur = [] then [] else [String.mk cur.reverse]
  | c :: cs, cur =>
    if c = '/' then
      (if cur = [] then [] else [String.mk cur.reverse]) ++ splitPathAux cs []
    else splitPathAux cs (c :: cur)

/-- The nonempty slash-separated components of a path string. -/
def splitPath (p : String) : List String :=
  splitPathAux p.data []

/-- Model of `str.startswith`: the second string is a character-prefix of
the first. -/
def strStartsWith (s pre : String) : Bool :=
  pre.data.isPrefixOf s.data

/-- POSIX lexical path normalization, as performed by `Path.resolve` in a
filesystem without symlinks: a dot component is dropped, a dot-dot
component removes the last component (and is a no-op at the root). -/
def normComps (cs : List String) : Comps :=
  cs.foldl (fun acc c =>
    if c = "." then acc
    else if c = ".." then acc.dropLast
    else acc ++ [c]) []

/-- Model of `str()` on a resolved `pathlib.Path`. -/
def renderPath (cs : Comps) : String :=
  "/" ++ String.intercalate "/" cs

/-- Model of `pathlib.Path(p).resolve()`: an absolute path normalizes on
its own, a relative one is interpreted against the working directory. -/
def pyResolve (cwd : Comps) (p : String) : Comps :=
  if isabs p then normComps (splitPath p)
  else normComps (cwd ++ splitPath p)

/-- Model of `str.rstrip()`: drop trailing whitespace characters. -/
def rstrip (s : String) : String :=
  String.mk (s.data.reverse.dropWhile Char.isWhitespace).reverse

/-- Contents of a regular file: lines of UTF-8 text (without their
terminating newline), or bytes that do not decode as UTF-8. -/
inductive FileData where
  | text (lines : List String)
  | binary
  deriving DecidableEq

/-- Model of `os.stat_result`: the size in bytes and the rendered
modification time. -/
structure FileStat where
  size : Nat
  mtime : String
  deriving DecidableEq

/-- A filesystem node: a regular file with its data, or a directory. -/
inductive Node where
  | file (data : FileData) (st : FileStat)
  | dir (st : FileStat)
  deriving DecidableEq

/-- The stat record of a node. -/
def Node.stat : Node → FileStat
  | Node.file _ st => st
  | Node.dir st => st

/-- The filesystem: a finite association of absolute paths to nodes. -/
abbrev FS := List (Comps × Node)

/-- The node at a path, when the path exists (models `exists`, `is_dir`,
`is_file` and `stat` on a `Path`). -/
def FS.lookup (fs : FS) (p : Comps) : Option Node :=
  (fs.find? (fun e => e.1 == p)).map (fun e => e.2)

/-- Names of the direct children of a directory (model of
`Path.iterdir`). -/
def FS.childNames (fs : FS) (p : Comps) : List String :=
  fs.filterMap (fun e =>
    if (e.1.length == p.length + 1) && p.isPrefixOf e.1 then e.1.getLast?
    else none)

/-- Python compares strings by code points; this is that order on the
character lists. -/
def listLe : List Char → List Char → Bool
  | [], _ => true
  | _ :: _, [] => false
  | a :: as, b :: bs =>
    if a.toNat < b.toNat then true
    else if b.toNat < a.toNat then false
    else listLe as bs

/-- The string order used by Python `sorted`. -/
def strLe (a b : String) : Bool :=
  listLe a.data b.data

/-- The string order as a decidable relation, for `List.insertionSort`. -/
def strLeP (a b : String) : Prop :=
  strLe a b = true

instance : DecidableRel strLeP := fun a b =>
  inferInstanceAs (Decidable (strLe a b = true))

/-- The spec side condition: `resolved` lies inside `root`, that is the
root's components are a prefix of the resolved path's components. -/
def isDescendantOf (resolved root : Comps) : Bool :=
  root.isPrefixOf resolved

/-- Model of `mcp.types.TextContent`. -/
structure TextContent where
  type : String
  text : String
  deriving DecidableEq

/-- A text content, as every handler builds it. -/
def textContent (s : String) : TextContent :=
  ⟨"text", s⟩

/-- The keys of the `arguments` dictionary that the three tools read. -/
structure Args where
  path : Option String
  max_lines : Option Nat
  deriving DecidableEq

/-- Embedding of `resolve_path`: an absolute path resolves on its own, a
relative one resolves against the allowed root; the result is admitted
exactly when its string form starts with the root's string form, else the
`ValueError` is raised (modelled as `Except.error`). -/
def resolve_path (allowed cwd : Comps) (path : String) : Except String Comps :=
  let resolved :=
    if isabs path then pyResolve cwd path
    else normComps (allowed ++ splitPath path)
  if strStartsWith (renderPath resolved) (renderPath allowed) then
    Except.ok resolved
  else
    Except.error "Access denied: path outside allowed directory"

/-- One line of `list_directory` output for the child named `n`: its kind
tag, its name, and for files its size in bytes. -/
def entryLine (fs : FS) (dirPath : Comps) (n : String) : String :=
  match FS.lookup fs (dirPath ++ [n]) with
  | some (Node.dir _) => "  [dir] " ++ n
  | some (Node.file _ st) => "  [file] " ++ n ++ " (" ++ Nat.repr st.size ++ " bytes)"
  | none => "  [file] " ++ n

/-- Embedding of `handle_list_directory`: resolve the path, report a
missing or non-directory target, otherwise list the children sorted by
name. -/
def handle_list_directory (fs : FS) (allowed cwd : Comps) (args : Args) :
    Except String (List TextContent) :=
  let path := args.path.getD "."
  match resolve_path allowed cwd path with
  | Except.error e => Except.error e
  | Except.ok dir_path =>
    match FS.lookup fs dir_path with
    | none => Except.ok [textContent ("Directory not found: " ++ path)]
    | some (Node.file _ _) => Except.ok [textContent ("Not a directory: " ++ path)]
    | some (Node.dir _) =>
      let entries :=
        (List.insertionSort strLeP (FS.childNames fs dir_path)).map
          (entryLine fs dir_path)
      let result :=
        if entries ≠ [] then
          "Contents of " ++ renderPath dir_path ++ ":\n" ++
            String.intercalate "\n" entries
        else "Directory " ++ renderPath dir_path ++ " is empty"
      Except.ok [textContent result]

/-- The truncation marker that `handle_read_file` appends when the line
cap is reached. -/
def truncMarker (max_lines : Nat) : String :=
  "\n... (truncated at " ++ Nat.repr max_lines ++ " lines)"

/-- Embedding of the read loop of `handle_read_file`: enumerate the
lines; once the index reaches the cap, append the truncation marker and
stop; otherwise keep the right-stripped line. -/
def readLines (ls : List String) (i max_lines : Nat) : List String :=
  match ls with
  | [] => []
  | l :: rest =>
    if i ≥ max_lines then [truncMarker max_lines]
    else rstrip l :: readLines rest (i + 1) max_lines

/-- Model of `pathlib.Path.name`: the final path component. -/
def fileName (p : Comps) : String :=
  p.getLast?.getD ""

/-- Embedding of `handle_read_file`: require a path, resolve it, report a
missing or non-file target, refuse a non-UTF-8 file, otherwise return up
to `max_lines` lines of content. -/
def handle_read_file (fs : FS) (allowed cwd : Comps) (args : Args) :
    Except String (List TextContent) :=
  let max_lines := args.max_lines.getD 100
  match args.path with
  | none => Except.ok [textContent "Error: path is required"]
  | some p =>
    if p = "" then Except.ok [textContent "Error: path is required"]
    else
      match resolve_path allowed cwd p with
      | Except.error e => Except.error e
      | Except.ok file_path =>
        match FS.lookup fs file_path with
        | none => Except.ok [textContent ("File not found: " ++ p)]
        | some (Node.dir _) => Except.ok [textContent ("Not a file: " ++ p)]
        | some (Node.file FileData.binary _) =>
          Except.ok [textContent ("Error: " ++ p ++ " is not a text file")]
        | some (Node.file (FileData.text ls) _) =>
          let content := String.intercalate "\n" (readLines ls 0 max_lines)
          Except.ok [textContent
            ("Contents of " ++ fileName file_path ++ ":\n\n" ++ content)]

/-- The type string that `handle_get_file_info` reports. -/
def nodeType : Node → String
  | Node.dir _ => "directory"
  | Node.file _ _ => "file"

/-- Embedding of `handle_get_file_info`: require a path, resolve it,
report a missing target, otherwise return path, type, size and
modification time. -/
def handle_get_file_info (fs : FS) (allowed cwd : Comps) (args : Args) :
    Except String (List TextContent) :=
  match args.path with
  | none => Except.ok [textContent "Error: path is required"]
  | some p =>
    if p = "" then Except.ok [textContent "Error: path is required"]
    else
      match resolve_path allowed cwd p with
      | Except.error e => Except.error e
      | Except.ok file_path =>
        match FS.lookup fs file_path with
        | none => Except.ok [textContent ("Path not found: " ++ p)]
        | some node =>
          Except.ok [textContent (String.intercalate "\n"
            ["Path: " ++ renderPath file_path,
             "Type: " ++ nodeType node,
             "Size: " ++ Nat.repr node.stat.size ++ " bytes",
             "Modified: " ++ node.stat.mtime])]

/-- Embedding of `call_tool`: dispatch on the tool name; an unknown name
becomes an observation, and every raised exception is caught at the
boundary and returned as text. -/
def call_tool (fs : FS) (allowed cwd : Comps) (name : String) (args : Args) :
    List TextContent :=
  let r : Except String (List TextContent) :=
    if name = "list_directory" then handle_list_directory fs allowed cwd args
    else if name = "read_file" then handle_read_file fs allowed cwd args
    else if name = "get_file_info" then handle_get_file_info fs allowed cwd args
    else Except.ok [textContent ("Unknown tool: " ++ name)]
  match r with
  | Except.ok ts => ts
  | Except.error e => [textContent ("Error: " ++ e)]

/-! ### Properties of the string order used by the directory sort -/

theorem listLe_total : ∀ as bs, listLe as bs = true ∨ listLe bs as = true
  | [], _ => Or.inl rfl
  | _ :: _, [] => Or.inr rfl
  | a :: as, b :: bs => by
    by_cases h1 : a.toNat < b.toNat
    · exact Or.inl (by simp [listLe, h1])
    · by_cases h2 : b.toNat < a.toNat
      · exact Or.inr (by simp [listLe, h2])
      · rcases listLe_total as bs with h | h
        · exact Or.inl (by simp [listLe, h1, h2, h])
        · exact Or.inr (by simp [listLe, h2, h1, h])

theorem listLe_trans : ∀ as bs cs, listLe as bs = true → listLe bs cs = true →
    listLe as cs = true
  | [], _, _, _, _ => rfl
  | _ :: _, [], _, h1, _ => by simp [listLe] at h1
  | _ :: _, _ :: _, [], _, h2 => by simp [listLe] at h2
  | a :: as, b :: bs, c :: cs, h1, h2 => by
    simp only [listLe] at h1 h2 ⊢
    by_cases hab : a.toNat < b.toNat
    · by_cases hbc : b.toNat < c.toNat
      · simp [show a.toNat < c.toNat by omega]
      · by_cases hcb : c.toNat < b.toNat
        · simp [hbc, hcb] at h2
        · simp [show a.toNat < c.toNat by omega]
    · by_cases hba : b.toNat < a.toNat
      · simp [hab, hba] at h1
      · simp only [if_neg hab, if_neg hba] at h1
        by_cases hbc : b.toNat < c.toNat
        · simp [show a.toNat < c.toNat by omega]
        · by_cases hcb : c.toNat < b.toNat
          · simp [hbc, hcb] at h2
          · simp only [if_neg hbc, if_neg hcb] at h2
            have hac : ¬ a.toNat < c.toNat := by omega
            have hca : ¬ c.toNat < a.toNat := by omega
            simp only [if_neg hac, if_neg hca]
            exact listLe_trans as bs cs h1 h2

theorem strLe_total (a b : String) : strLeP a b ∨ strLeP b a :=
  listLe_total a.data b.data

theorem strLe_trans (a b c : String) : strLeP a b → strLeP b c → strLeP a c :=
  listLe_trans a.data b.data c.data

instance : IsTotal String strLeP := ⟨strLe_total⟩

instance : IsTrans String strLeP := ⟨strLe_trans⟩

/-! ### The read loop, characterized -/

theorem readLines_eq : ∀ (ls : List String) (i cap : Nat), i ≤ cap →
    readLines ls i cap =
      (ls.take (cap - i)).map rstrip ++
        (if cap - i < ls.length then [truncMarker cap] else [])
  | [], i, cap, _ => by simp [readLines]
  | l :: rest, i, cap, h => by
    simp only [readLines]
    by_cases hic : i ≥ cap
    · have h0 : cap - i = 0 := by omega
      rw [if_pos hic, h0]
      simp
    · rw [if_neg hic, readLines_eq rest (i + 1) cap (by omega)]
      have h2 : cap - i = (cap - (i + 1)) + 1 := by omega
      rw [h2]
      simp only [List.take_succ_cons, List.map_cons, List.cons_append,
        List.length_cons, Nat.add_lt_add_iff_right]

/-! ### Shape of every handler result -/

theorem handle_list_directory_shape (fs : FS) (allowed cwd : Comps) (args : Args) :
    (∃ e, handle_list_directory fs allowed cwd args = Except.error e) ∨
    (∃ s, handle_list_directory fs allowed cwd args = Except.ok [textContent s]) := by
  cases hres : resolve_path allowed cwd (args.path.getD ".") with
  | error e =>
    simp only [handle_list_directory, hres]
    exact Or.inl ⟨e, rfl⟩
  | ok dir_path =>
    cases hnode : FS.lookup fs dir_path with
    | none =>
      simp only [handle_list_directory, hres, hnode]
      exact Or.inr ⟨_, rfl⟩
    | some node =>
      cases node with
      | file d st =>
        simp only [handle_list_directory, hres, hnode]
        exact Or.inr ⟨_, rfl⟩
      | dir st =>
        simp only [handle_list_directory, hres, hnode]
        exact Or.inr ⟨_, rfl⟩

theorem handle_read_file_shape (fs : FS) (allowed cwd : Comps) (args : Args) :
    (∃ e, handle_read_file fs allowed cwd args = Except.error e) ∨
    (∃ s, handle_read_file fs allowed cwd args = Except.ok [textContent s]) := by
  cases hp : args.path with
  | none =>
    simp only [handle_read_file, hp]
    exact Or.inr ⟨_, rfl⟩
  | some p =>
    by_cases hpe : p = ""
    · simp only [handle_read_file, hp, if_pos hpe]
      exact Or.inr ⟨_, rfl⟩
    · cases hres : resolve_path allowed cwd p with
      | error e =>
        simp only [handle_read_file, hp, if_neg hpe, hres]
        exact Or.inl ⟨e, rfl⟩
      | ok fp =>
        cases hnode : FS.lookup fs fp with
        | none =>
          simp only [handle_read_file, hp, if_neg hpe, hres, hnode]
          exact Or.inr ⟨_, rfl⟩
        | some node =>
          cases node with
          | dir st =>
            simp only [handle_read_file, hp, if_neg hpe, hres, hnode]
            exact Or.inr ⟨_, rfl⟩
          | file d st =>
            cases d with
            | binary =>
              simp only [handle_read_file, hp, if_neg hpe, hres, hnode]
              exact Or.inr ⟨_, rfl⟩
            | text ls =>
              simp only [handle_read_file, hp, if_neg hpe, hres, hnode]
              exact Or.inr ⟨_, rfl⟩

theorem handle_get_file_info_shape (fs : FS) (allowed cwd : Comps) (args : Args) :
    (∃ e, handle_get_file_info fs allowed cwd args = Except.error e) ∨
    (∃ s, handle_get_file_info fs allowed cwd args = Except.ok [textContent s]) := by
  cases hp : args.path with
  | none =>
    simp only [handle_get_file_info, hp]
    exact Or.inr ⟨_, rfl⟩
  | some p =>
    by_cases hpe : p = ""
    · simp only [handle_get_file_info, hp, if_pos hpe]
      exact Or.inr ⟨_, rfl⟩
    · cases hres : resolve_path allowed cwd p with
      | error e =>
        simp only [handle_get_file_info, hp, if_neg hpe, hres]
        exact Or.inl ⟨e, rfl⟩
      | ok fp =>
        cases hnode : FS.lookup fs fp with
        | none =>
          simp only [handle_get_file_info, hp, if_neg hpe, hres, hnode]
          exact Or.inr ⟨_, rfl⟩
        | some node =>
          simp only [handle_get_file_info, hp, if_neg hpe, hres, hnode]
          exact Or.inr ⟨_, rfl⟩

/-- C1: the claim says any resolved path that is not a descendant of the
configured root is denied with no I/O.  The server's check is a plain
string-prefix test on the rendered paths, so with root `/tmp/data` the
absolute path `/tmp/database/secret.txt` — not a descendant of the root —
passes the check and `read_file` reads and returns the file's content;
with the file absent the same call reports `File not found`, showing the
filesystem was consulted.  This contradicts the claim (and the server's
own docstring that all paths are restricted to the root). -/
theorem c1_prefix_escape_eval :
    isDescendantOf (pyResolve [] "/tmp/database/secret.txt") ["tmp", "data"] = false ∧
    call_tool [(["tmp", "database", "secret.txt"],
        Node.file (FileData.text ["topsecret"]) ⟨10, "t"⟩)]
      ["tmp", "data"] [] "read_file" ⟨some "/tmp/database/secret.txt", none⟩ =
      [textContent "Contents of secret.txt:\n\ntopsecret"] ∧
    call_tool [] ["tmp", "data"] [] "read_file"
      ⟨some "/tmp/database/secret.txt", none⟩ =
      [textContent "File not found: /tmp/database/secret.txt"] :=
  ⟨rfl, rfl, rfl⟩

/-- C2: for every tool name and every argument dictionary, `call_tool`
returns a single text content — no exception escapes the handler
boundary. -/
theorem c2_call_tool_always_text (fs : FS) (allowed cwd : Comps)
    (name : String) (args : Args) :
    ∃ s, call_tool fs allowed cwd name args = [textContent s] := by
  by_cases h1 : name = "list_directory"
  · rcases handle_list_directory_shape fs allowed cwd args with ⟨e, he⟩ | ⟨s, hs⟩
    · exact ⟨"Error: " ++ e, by simp [call_tool, h1, he]⟩
    · exact ⟨s, by simp [call_tool, h1, hs]⟩
  · by_cases h2 : name = "read_file"
    · rcases handle_read_file_shape fs allowed cwd args with ⟨e, he⟩ | ⟨s, hs⟩
      · exact ⟨"Error: " ++ e, by simp [call_tool, h1, h2, he]⟩
      · exact ⟨s, by simp [call_tool, h1, h2, hs]⟩
    · by_cases h3 : name = "get_file_info"
      · rcases handle_get_file_info_shape fs allowed cwd args with ⟨e, he⟩ | ⟨s, hs⟩
        · exact ⟨"Error: " ++ e, by simp [call_tool, h1, h2, h3, he]⟩
        · exact ⟨s, by simp [call_tool, h1, h2, h3, hs]⟩
      · exact ⟨"Unknown tool: " ++ name, by simp [call_tool, h1, h2, h3]⟩

/-- C3: for a readable text file inside the root and any cap, `read_file`
returns exactly the first `min cap n` right-stripped lines, with the
truncation marker appended precisely when the file has more than `cap`
lines; a file with at most `cap` lines is returned in full, without a
marker. -/
theorem c3_read_file_cap (fs : FS) (allowed cwd rp : Comps) (p : String)
    (ls : List String) (st : FileStat) (cap : Nat)
    (hp : p ≠ "")
    (hres : resolve_path allowed cwd p = Except.ok rp)
    (hfile : FS.lookup fs rp = some (Node.file (FileData.text ls) st)) :
    handle_read_file fs allowed cwd ⟨some p, some cap⟩ =
      Except.ok [textContent ("Contents of " ++ fileName rp ++ ":\n\n" ++
        String.intercalate "\n"
          ((ls.take cap).map rstrip ++
            (if cap < ls.length then [truncMarker cap] else [])))] := by
  have h := readLines_eq ls 0 cap (Nat.zero_le cap)
  simp only [Nat.sub_zero] at h
  simp only [handle_read_file, Option.getD_some, if_neg hp, hres, hfile, h]

/-- A concrete run of `c3_read_file_cap`: a three-line file read with cap
2 gives the two stripped lines plus the truncation marker. -/
theorem c3_read_file_cap_witness :
    handle_read_file
      [(["r", "a.txt"], Node.file (FileData.text ["l1", "l2", "l3"]) ⟨6, "t"⟩)]
      ["r"] [] ⟨some "a.txt", some 2⟩ =
      Except.ok [textContent "Contents of a.txt:\n\nl1\nl2\n\n... (truncated at 2 lines)"] := by
  have h := c3_read_file_cap
    [(["r", "a.txt"], Node.file (FileData.text ["l1", "l2", "l3"]) ⟨6, "t"⟩)]
    ["r"] [] ["r", "a.txt"] "a.txt" ["l1", "l2", "l3"] ⟨6, "t"⟩ 2
    (by decide) rfl rfl
  rw [h]
  rfl

/-- C4: a relative path is resolved against the configured root: the
result does not depend on the working directory at all, and a successful
resolution is the normalization of the root extended by the path's
components. -/
theorem c4_relative_resolves_against_root (allowed cwd cwd' : Comps) (p : String)
    (h : isabs p = false) :
    resolve_path allowed cwd p = resolve_path allowed cwd' p ∧
    ∀ r, resolve_path allowed cwd p = Except.ok r →
      r = normComps (allowed ++ splitPath p) := by
  constructor
  · simp [resolve_path, h]
  · intro r hr
    simp only [resolve_path, h] at hr
    simp only [Bool.false_eq_true, if_false] at hr
    split at hr
    · injection hr with h'
      exact h'.symm
    · simp at hr

/-- A concrete run of `c4_relative_resolves_against_root`: `docs` is
relative, resolves identically under two working directories, and lands
at the root extended by `docs`. -/
theorem c4_relative_resolves_against_root_witness :
    isabs "docs" = false ∧
    resolve_path ["r"] ["x"] "docs" = resolve_path ["r"] ["y"] "docs" ∧
    (["r", "docs"] : Comps) = normComps (["r"] ++ splitPath "docs") := by
  refine ⟨rfl, ?_, ?_⟩
  · exact (c4_relative_resolves_against_root ["r"] ["x"] ["y"] "docs" rfl).1
  · exact (c4_relative_resolves_against_root ["r"] ["x"] ["y"] "docs" rfl).2
      ["r", "docs"] rfl

/-- C5: for a directory inside the root, `list_directory` lists exactly
the directory's members, one line each, in sorted name order, with the
kind tag and, for files only, the size in bytes; an existing non-directory
target reports `Not a directory`, a missing one `Directory not found`. -/
theorem c5_list_directory (fs : FS) (allowed cwd dp : Comps) (p : String)
    (hres : resolve_path allowed cwd p = Except.ok dp) :
    (FS.lookup fs dp = none →
       handle_list_directory fs allowed cwd ⟨some p, none⟩ =
         Except.ok [textContent ("Directory not found: " ++ p)]) ∧
    (∀ d st, FS.lookup fs dp = some (Node.file d st) →
       handle_list_directory fs allowed cwd ⟨some p, none⟩ =
         Except.ok [textContent ("Not a directory: " ++ p)]) ∧
    (∀ st, FS.lookup fs dp = some (Node.dir st) →
       ∃ names : List String,
         names.Perm (FS.childNames fs dp) ∧
         List.Sorted strLeP names ∧
         handle_list_directory fs allowed cwd ⟨some p, none⟩ =
           Except.ok [textContent
             (if names = [] then "Directory " ++ renderPath dp ++ " is empty"
              else "Contents of " ++ renderPath dp ++ ":\n" ++
                String.intercalate "\n" (names.map (entryLine fs dp)))]) ∧
    (∀ n st, FS.lookup fs (dp ++ [n]) = some (Node.dir st) →
       entryLine fs dp n = "  [dir] " ++ n) ∧
    (∀ n d st, FS.lookup fs (dp ++ [n]) = some (Node.file d st) →
       entryLine fs dp n = "  [file] " ++ n ++ " (" ++ Nat.repr st.size ++ " bytes)") := by
  refine ⟨?_, ?_, ?_, ?_, ?_⟩
  · intro hn
    simp only [handle_list_directory, Option.getD_some, hres, hn]
  · intro d st hn
    simp only [handle_list_directory, Option.getD_some, hres, hn]
  · intro st hn
    refine ⟨List.insertionSort strLeP (FS.childNames fs dp),
      List.perm_insertionSort _ _, List.sorted_insertionSort _ _, ?_⟩
    simp only [handle_list_directory, Option.getD_some, hres, hn]
    by_cases hnil : List.insertionSort strLeP (FS.childNames fs dp) = []
    · simp [hnil]
    · simp [hnil, List.map_eq_nil_iff]
  · intro n st hn
    simp only [entryLine, hn]
  · intro n d st hn
    simp only [entryLine, hn]

/-- A concrete run of `c5_list_directory`: a path that resolves inside
the root but does not exist reports `Directory not found`. -/
theorem c5_list_directory_witness :
    FS.lookup ([] : FS) ["r", "x"] = none ∧
    handle_list_directory [] ["r"] [] ⟨some "x", none⟩ =
      Except.ok [textContent "Directory not found: x"] :=
  ⟨rfl, (c5_list_directory [] ["r"] [] ["r", "x"] "x" rfl).1 rfl⟩

/-- C6: for an existing path inside the root, `get_file_info` reports the
path, its kind, its size in bytes and its modification time; a missing
path reports `Path not found`. -/
theorem c6_get_file_info (fs : FS) (allowed cwd fp : Comps) (p : String)
    (hp : p ≠ "")
    (hres : resolve_path allowed cwd p = Except.ok fp) :
    (FS.lookup fs fp = none →
       handle_get_file_info fs allowed cwd ⟨some p, none⟩ =
         Except.ok [textContent ("Path not found: " ++ p)]) ∧
    (∀ node, FS.lookup fs fp = some node →
       handle_get_file_info fs allowed cwd ⟨some p, none⟩ =
         Except.ok [textContent (String.intercalate "\n"
           ["Path: " ++ renderPath fp,
            "Type: " ++ nodeType node,
            "Size: " ++ Nat.repr node.stat.size ++ " bytes",
            "Modified: " ++ node.stat.mtime])]) := by
  constructor
  · intro hn
    simp only [handle_get_file_info, if_neg hp, hres, hn]
  · intro node hn
    simp only [handle_get_file_info, if_neg hp, hres, hn]

/-- A concrete run of `c6_get_file_info`: a file's info lists its path,
type, size and modification time. -/
theorem c6_get_file_info_witness :
    handle_get_file_info
      [(["r", "f"], Node.file (FileData.text ["x"]) ⟨5, "2024-01-02T03:04:05"⟩)]
      ["r"] [] ⟨some "f", none⟩ =
      Except.ok [textContent
        "Path: /r/f\nType: file\nSize: 5 bytes\nModified: 2024-01-02T03:04:05"] := by
  have h := (c6_get_file_info
    [(["r", "f"], Node.file (FileData.text ["x"]) ⟨5, "2024-01-02T03:04:05"⟩)]
    ["r"] [] ["r", "f"] "f" (by decide) rfl).2
    (Node.file (FileData.text ["x"]) ⟨5, "2024-01-02T03:04:05"⟩) rfl
  rw [h]
  rfl

/-- C7: for any name other than the three tools, `call_tool` returns a
text observation naming the unknown tool and does not raise. -/
theorem c7_unknown_tool (fs : FS) (allowed cwd : Comps) (name : String)
    (args : Args)
    (h1 : name ≠ "list_directory") (h2 : name ≠ "read_file")
    (h3 : name ≠ "get_file_info") :
    call_tool fs allowed cwd name args =
      [textContent ("Unknown tool: " ++ name)] := by
  simp [call_tool, h1, h2, h3]

/-- A concrete run of `c7_unknown_tool` on the name `delete_file`. -/
theorem c7_unknown_tool_witness :
    call_tool [] ["r"] [] "delete_file" ⟨none, none⟩ =
      [textContent "Unknown tool: delete_file"] :=
  c7_unknown_tool [] ["r"] [] "delete_file" ⟨none, none⟩
    (by decide) (by decide) (by decide)

/-- C8: for a file inside the root whose bytes do not decode as UTF-8,
`read_file` returns the `is not a text file` message, whatever the line
cap, instead of raising or returning partial content. -/
theorem c8_binary_file (fs : FS) (allowed cwd fp : Comps) (p : String)
    (st : FileStat) (mo : Option Nat)
    (hp : p ≠ "")
    (hres : resolve_path allowed cwd p = Except.ok fp)
    (hbin : FS.lookup fs fp = some (Node.file FileData.binary st)) :
    handle_read_file fs allowed cwd ⟨some p, mo⟩ =
      Except.ok [textContent ("Error: " ++ p ++ " is not a text file")] := by
  simp only [handle_read_file, if_neg hp, hres, hbin]

/-- A concrete run of `c8_binary_file` on a non-UTF-8 file. -/
theorem c8_binary_file_witness :
    handle_read_file [(["r", "img.png"], Node.file FileData.binary ⟨9, "t"⟩)]
      ["r"] [] ⟨some "img.png", none⟩ =
      Except.ok [textContent "Error: img.png is not a text file"] :=
  c8_binary_file [(["r", "img.png"], Node.file FileData.binary ⟨9, "t"⟩)]
    ["r"] [] ["r", "img.png"] "img.png" ⟨9, "t"⟩ none (by decide) rfl rfl

/-- C9: when the path key is absent or the empty string, `read_file` and
`get_file_info` both return `Error: path is required`; the result does
not depend on the filesystem, the root or the working directory, so no
resolution and no filesystem access happens. -/
theorem c9_path_required (fs : FS) (allowed cwd : Comps) (po : Option String)
    (mo : Option Nat) (h : po = none ∨ po = some "") :
    handle_read_file fs allowed cwd ⟨po, mo⟩ =
      Except.ok [textContent "Error: path is required"] ∧
    handle_get_file_info fs allowed cwd ⟨po, mo⟩ =
      Except.ok [textContent "Error: path is required"] := by
  rcases h with h | h <;> subst h <;> exact ⟨rfl, rfl⟩

/-- A concrete run of `c9_path_required` with an empty path string. -/
theorem c9_path_required_witness :
    handle_read_file [(["r", "f"], Node.dir ⟨0, "t"⟩)] ["r"] [] ⟨some "", some 5⟩ =
      Except.ok [textContent "Error: path is required"] ∧
    handle_get_file_info [(["r", "f"], Node.dir ⟨0, "t"⟩)] ["r"] [] ⟨some "", some 5⟩ =
      Except.ok [textContent "Error: path is required"] :=
  c9_path_required [(["r", "f"], Node.dir ⟨0, "t"⟩)] ["r"] [] (some "") (some 5)
    (Or.inr rfl)

/-- C10: omitting `max_lines` is the same as passing 100: `read_file`
with no cap argument returns exactly what it returns with cap 100. -/
theorem c10_default_max_lines (fs : FS) (allowed cwd : Comps)
    (po : Option String) :
    handle_read_file fs allowed cwd ⟨po, none⟩ =
      handle_read_file fs allowed cwd ⟨po, some 100⟩ :=
  rfl
